import Mathlib

/-!
Verification of the live-preview panel synchronization engine
(`client/src/entrypoints/admin/preview-panel.js`).

The panel is embedded as an explicit state machine: the mutable bindings of
`initPreview` (`hasPendingUpdate`, `iframe`, `iframeLastScroll`, `oldData`,
the spinner and panel CSS flags, the new-tab link target) become fields of a
`PanelState` record, and each handler of the source file becomes a function
on that record.  Asynchronous network exchanges are made explicit by passing
the eventual `FetchResult` to the function that consumes it; the poll loop is
a step relation driven by a list of events.
-/

set_option maxRecDepth 4096

namespace PreviewPanel

/-!
## Form payload serialization

`hasChanges` compares `new URLSearchParams(formData).toString()` strings.
This section models the application/x-www-form-urlencoded serializer used by
`URLSearchParams.toString()`: each name and value is UTF-8 encoded and then
percent-escaped (ASCII alphanumerics and `*`, `-`, `.`, `_` kept, space
written `+`, every other byte written `%XX` with uppercase hex), and the
`name=value` pairs are joined with `&`.
-/

/-- Bytes the application/x-www-form-urlencoded serializer keeps verbatim:
ASCII alphanumerics and `*` (0x2A), `-` (0x2D), `.` (0x2E), `_` (0x5F). -/
def isSafeByte (b : Nat) : Bool :=
  (0x30 ≤ b && b ≤ 0x39) || (0x41 ≤ b && b ≤ 0x5A) || (0x61 ≤ b && b ≤ 0x7A) ||
    b == 0x2A || b == 0x2D || b == 0x2E || b == 0x5F

/-- Uppercase hexadecimal digit for a value below 16. -/
def hexDigitChar (n : Nat) : Char :=
  if n < 10 then Char.ofNat (48 + n) else Char.ofNat (55 + n)

/-- Percent-escaping of a single byte: safe bytes are kept, space becomes
`+`, anything else becomes `%XX` with uppercase hex digits. -/
def encodeByte (b : Nat) : List Char :=
  if isSafeByte b then [Char.ofNat b]
  else if b == 32 then ['+']
  else ['%', hexDigitChar (b / 16), hexDigitChar (b % 16)]

/-- UTF-8 byte sequence of a Unicode code point (mirrors the standard
UTF-8 encoder used by the platform when serializing form data). -/
def utf8Encode (n : Nat) : List Nat :=
  if n < 0x80 then [n]
  else if n < 0x800 then [0xC0 + n / 64, 0x80 + n % 64]
  else if n < 0x10000 then [0xE0 + n / 4096, 0x80 + n / 64 % 64, 0x80 + n % 64]
  else [0xF0 + n / 262144, 0x80 + n / 4096 % 64, 0x80 + n / 64 % 64, 0x80 + n % 64]

/-- UTF-8 byte stream of a character sequence. -/
def utf8Bytes (cs : List Char) : List Nat :=
  cs.flatMap (fun c => utf8Encode c.toNat)

/-- Percent-escaped UTF-8 form of a character sequence. -/
def formUrlEncodeChars (cs : List Char) : List Char :=
  (utf8Bytes cs).flatMap encodeByte

/-- One `name=value` pair of the serialized payload. -/
def encodePairChars (kv : String × String) : List Char :=
  formUrlEncodeChars kv.1.data ++ '=' :: formUrlEncodeChars kv.2.data

/-- The `name=value` pairs joined with `&`. -/
def serializeChars : List (String × String) → List Char
  | [] => []
  | [kv] => encodePairChars kv
  | kv :: rest => encodePairChars kv ++ '&' :: serializeChars rest

/-- Model of `new URLSearchParams(formData).toString()` on an ordered list
of (field name, field value) pairs. -/
def serializePayload (d : List (String × String)) : String :=
  String.mk (serializeChars d)

/-!
### A left inverse of the serializer

The decoders below are lenient parsers used purely as proof tools: composing
them with the encoders is the identity, which makes the encoders injective.
-/

/-- Byte value the percent-decoder assigns to an unescaped character. -/
def plainByte (c : Char) : Nat :=
  if c == '+' then 32 else c.toNat

/-- Value of an uppercase hexadecimal digit. -/
def hexVal (c : Char) : Nat :=
  if c.toNat ≤ 57 then c.toNat - 48 else c.toNat - 55

/-- Lenient percent-decoder, a left inverse of byte-wise percent-escaping. -/
def percentDecode : List Char → Option (List Nat)
  | [] => some []
  | c :: rest =>
    if c == '%' then
      match rest with
      | h1 :: h2 :: rest2 => (percentDecode rest2).map (fun l => (hexVal h1 * 16 + hexVal h2) :: l)
      | _ => none
    else (percentDecode rest).map (fun l => plainByte c :: l)

/-- Number of bytes of a UTF-8 sequence, read off its leading byte. -/
def byteLen (b0 : Nat) : Nat :=
  if b0 < 0x80 then 1 else if b0 < 0xE0 then 2 else if b0 < 0xF0 then 3 else 4

/-- Code point encoded at the head of a byte stream (lenient: missing
continuation bytes are read as zero). -/
def decodeCp : List Nat → Nat
  | [] => 0
  | b0 :: rest =>
    if b0 < 0x80 then b0
    else if b0 < 0xE0 then (b0 - 0xC0) * 64 + (rest.getD 0 0 - 0x80)
    else if b0 < 0xF0 then
      (b0 - 0xE0) * 4096 + (rest.getD 0 0 - 0x80) * 64 + (rest.getD 1 0 - 0x80)
    else
      (b0 - 0xF0) * 262144 + (rest.getD 0 0 - 0x80) * 4096 + (rest.getD 1 0 - 0x80) * 64 +
        (rest.getD 2 0 - 0x80)

/-- Lenient UTF-8 decoder, a left inverse of `utf8Encode` on byte streams. -/
def utf8Decode (l : List Nat) : List Nat :=
  match l with
  | [] => []
  | b0 :: rest => decodeCp (b0 :: rest) :: utf8Decode (rest.drop (byteLen b0 - 1))
termination_by l.length
decreasing_by
  simp only [List.length_cons, List.length_drop]
  omega

/-!
## Data model

State of one preview panel instance.  URLs are kept structured (a base plus
an ordered query-parameter list) so that the `URL` / `URLSearchParams`
manipulation of `handlePreviewModeChange` is explicit; `toString` on such a
URL corresponds to record equality here.  The scroll positions `scrollX` /
`scrollY` of a document and the `top` / `left` fields passed to
`window.scroll` are integers.
-/

/-- Scroll target passed to `contentWindow.scroll` (the shape of the
`iframeLastScroll` object). -/
structure Scroll where
  top : Int
  left : Int
deriving DecidableEq

/-- The scroll state of an iframe's content window. -/
structure ContentWindow where
  scrollX : Int
  scrollY : Int
deriving DecidableEq

/-- A URL split into everything before the query string and the ordered
query-parameter list (the view `new URL(...)` plus `searchParams` gives). -/
structure Url where
  base : String
  params : List (String × String)
deriving DecidableEq

/-- An iframe element: its `src` URL, its other attributes
(name-value pairs; the `src` attribute is represented by the `src` field),
and its content window when one is attached. -/
structure Iframe where
  src : Url
  attrs : List (String × String)
  contentWindow : Option ContentWindow
deriving DecidableEq

/-- JSON body returned by the rendering endpoint. -/
structure Verdict where
  is_valid : Bool
  is_available : Bool
deriving DecidableEq

/-- The mutable bindings of `initPreview` gathered into one record:
`hasPendingUpdate`, the spinner visibility (`w-hidden` class on the loading
spinner), the `preview-panel--has-errors` and `preview-panel--unavailable`
classes, the current `iframe`, `iframeLastScroll`, the invisible replacement
iframe awaiting its load event (when `reloadIframe` has been called), the
`oldData` snapshot of the auto-update comparator and the `newTabButton.href`
target. -/
structure PanelState where
  hasPendingUpdate : Bool
  spinnerHidden : Bool
  hasErrors : Bool
  unavailable : Bool
  iframe : Iframe
  iframeLastScroll : Scroll
  newIframe : Option Iframe
  oldData : List (String × String)
  newTabHref : Url
deriving DecidableEq

/-- Outcome of the network exchange of one `fetch(previewUrl, ...)` call
followed by `response.json()`: a decoded verdict, or a rejection anywhere in
that chain. -/
inductive FetchResult where
  | ok (v : Verdict)
  | err
deriving DecidableEq

/-- Settled state of the promise returned by `setPreviewData`. -/
inductive PromiseResult where
  | resolved (b : Bool)
  | rejected
deriving DecidableEq

/-- Externally visible actions of the handlers: opening and focusing the
blank tab, dispatching a network request, showing the failure alert,
navigating the opened tab, refocusing the editor window, closing the tab. -/
inductive Action where
  | openTab
  | focusTab
  | dispatch
  | alert
  | navigateTab (u : Url)
  | refocusMain
  | closeTab
deriving DecidableEq

/-!
## DOM and URL helpers
-/

/-- `element.setAttribute(k, v)`: overwrite the attribute named `k` in
place, or append it. -/
def setAttribute (attrs : List (String × String)) (k v : String) :
    List (String × String) :=
  if attrs.any (fun p => p.1 == k) then
    attrs.map (fun p => if p.1 == k then (k, v) else p)
  else attrs ++ [(k, v)]

/-- `element.getAttribute(k)`: first (only, in a real DOM) value under `k`. -/
def getAttr : List (String × String) → String → Option String
  | [], _ => none
  | (k2, v) :: rest, k => if k2 == k then some v else getAttr rest k

/-- `searchParams.get(k)`. -/
def paramsGet : List (String × String) → String → Option String
  | [], _ => none
  | (k2, v) :: rest, k => if k2 == k then some v else paramsGet rest k

/-- `searchParams.delete(k)`: remove every pair named `k`. -/
def paramsDeleteKey (ps : List (String × String)) (k : String) :
    List (String × String) :=
  ps.filter (fun p => !(p.1 == k))

/-- `searchParams.set(k, v)`: replace the first pair named `k` in place and
drop the other pairs named `k`, or append the pair. -/
def paramsSet : List (String × String) → String → String → List (String × String)
  | [], k, v => [(k, v)]
  | (k2, v2) :: rest, k, v =>
    if k2 == k then (k, v) :: paramsDeleteKey rest k
    else (k2, v2) :: paramsSet rest k v

/-!
## The handlers of `initPreview`

Each function below is the translation of the JavaScript closure of the same
name (lines 76-218 of `preview-panel.js`).
-/

/-- Lines 76-80.  `updateIframeLastScroll`: capture `scrollY` / `scrollX`
of the current iframe's content window into `iframeLastScroll`; no-op when
`contentWindow` is null. -/
def updateIframeLastScroll (s : PanelState) : PanelState :=
  match s.iframe.contentWindow with
  | none => s
  | some w => { s with iframeLastScroll := { top := w.scrollY, left := w.scrollX } }

/-- The inline styles given to the invisible replacement iframe
(`width: 0`, `height: 0`, `opacity: 0`, `position: absolute`), represented
as the value of its `style` attribute. -/
def placeholderStyle : String :=
  "width: 0; height: 0; opacity: 0; position: absolute"

/-- Lines 82-95, 123.  `reloadIframe` up to inserting the new element: create
an invisible iframe with the same `src` as the current one and attach the
load listener.  The pending load is recorded in `newIframe`; its content
window starts unscrolled. -/
def reloadIframe (s : PanelState) : PanelState :=
  { s with
    newIframe := some {
      src := s.iframe.src
      attrs := [("style", placeholderStyle)]
      contentWindow := some { scrollX := 0, scrollY := 0 } } }

/-- Lines 100-103.  The attribute-copy loop of `handleLoad`: every attribute
of the old iframe except `src` is written onto the new one. -/
def copyAttrs (old dst : List (String × String)) : List (String × String) :=
  old.foldl (fun acc kv => if kv.1 == "src" then acc else setAttribute acc kv.1 kv.2) dst

/-- Lines 97-121.  `handleLoad`: copy the attributes, restore the captured
scroll position into the new content window, swap the iframe reference,
clear the placeholder styling (`newIframe.style = null`, modelled as
resetting the `style` attribute to the empty serialization), hide the
spinner, clear the pending flag and detach the one-shot listener. -/
def handleLoad (s : PanelState) : PanelState :=
  match s.newIframe with
  | none => s
  | some ni =>
    let copied : Iframe := { ni with attrs := copyAttrs s.iframe.attrs ni.attrs }
    let scrolled : Iframe := { copied with
      contentWindow := copied.contentWindow.map (fun w =>
        { w with scrollY := s.iframeLastScroll.top, scrollX := s.iframeLastScroll.left }) }
    let cleared : Iframe := { scrolled with attrs := setAttribute scrolled.attrs "style" "" }
    { s with
      iframe := cleared
      newIframe := none
      spinnerHidden := true
      hasPendingUpdate := false }

/-- Lines 136-143.  The class toggles performed on the decoded verdict:
`preview-panel--has-errors` iff not `is_valid`, `preview-panel--unavailable`
iff not `is_available`. -/
def applyVerdict (s : PanelState) (v : Verdict) : PanelState :=
  { s with hasErrors := !v.is_valid, unavailable := !v.is_available }

/-- Lines 127-128.  The synchronous prefix of `setPreviewData`: raise the
pending flag and show the loading spinner (remove `w-hidden`). -/
def setPreviewDataStart (s : PanelState) : PanelState :=
  { s with hasPendingUpdate := true, spinnerHidden := false }

/-- Lines 135-148.  The fulfillment handler of `setPreviewData`: toggle the
two panel classes, capture the scroll position, start the iframe swap, and
resolve with `data.is_valid`. -/
def setPreviewDataResolve (s : PanelState) (v : Verdict) : PanelState × Bool :=
  (reloadIframe (updateIframeLastScroll (applyVerdict s v)), v.is_valid)

/-- Lines 149-154.  The rejection handler of `setPreviewData`: hide the
spinner, clear the pending flag; the error is re-thrown. -/
def setPreviewDataReject (s : PanelState) : PanelState :=
  { s with spinnerHidden := true, hasPendingUpdate := false }

/-- Lines 126-155.  `setPreviewData`, with the outcome of the network
exchange passed explicitly: the synchronous prefix runs first, then the
matching continuation; the promise resolves to `is_valid` or stays
rejected. -/
def setPreviewData (s : PanelState) (r : FetchResult) : PanelState × PromiseResult :=
  match r with
  | .ok v =>
    let t := setPreviewDataResolve (setPreviewDataStart s) v
    (t.1, .resolved t.2)
  | .err => (setPreviewDataReject (setPreviewDataStart s), .rejected)

/-- Lines 157-161.  `handlePreview`: `setPreviewData().catch(alert)`.  The
returned promise always fulfills: with `some is_valid`, or with `none`
(`undefined`) after the alert.  The action list records the dispatched
request and the alert. -/
def handlePreview (s : PanelState) (r : FetchResult) :
    PanelState × Option Bool × List Action :=
  match setPreviewData s r with
  | (s2, .resolved b) => (s2, some b, [Action.dispatch])
  | (s2, .rejected) => (s2, none, [Action.dispatch, Action.alert])

/-- Lines 163-177.  `handlePreviewInNewTab`: open and focus the blank tab
synchronously, run `handlePreview`, then either navigate the tab to the
new-tab target or refocus the editor window and close the tab, depending on
the truthiness of the fulfilled value. -/
def handlePreviewInNewTab (s : PanelState) (r : FetchResult) :
    PanelState × List Action :=
  let t := handlePreview s r
  let branch :=
    if t.2.1 = some true then [Action.navigateTab t.1.newTabHref]
    else [Action.refocusMain, Action.closeTab]
  (t.1, Action.openTab :: Action.focusTab :: t.2.2 ++ branch)

/-- Lines 183-190.  `hasChanges`: serialize the previous snapshot and the
current form data, advance the stored snapshot unconditionally, and report
whether the payloads differ. -/
def hasChanges (oldData newData : List (String × String)) :
    Bool × List (String × String) :=
  ((serializePayload oldData != serializePayload newData), newData)

/-- Lines 204-218.  `handlePreviewModeChange`: set `mode` on the iframe's
URL, capture the scroll position, assign the new `src` (a browser-level
reload, so the content window restarts unscrolled), derive the new-tab
target by deleting `in_preview_panel`, then run `handlePreview`. -/
def handlePreviewModeChange (s : PanelState) (mode : String) (r : FetchResult) :
    PanelState × List Action :=
  let url : Url := { s.iframe.src with params := paramsSet s.iframe.src.params "mode" mode }
  let s1 := updateIframeLastScroll s
  let s2 := { s1 with
    iframe := { s1.iframe with
      src := url
      contentWindow := some { scrollX := 0, scrollY := 0 } } }
  let url2 : Url := { url with params := paramsDeleteKey url.params "in_preview_panel" }
  let s3 := { s2 with newTabHref := url2 }
  let t := handlePreview s3 r
  (t.1, t.2.2)

/-!
## The poll scheduler

Lines 192-197.  The `setInterval` callback, together with the asynchronous
completions it can interleave with, as a step machine: a `tick` carries the
form data read by `new FormData(form)` at that instant; `netOk` / `netErr`
are the settlement of an outstanding fetch; `load` is the load event of the
pending replacement iframe.  The Boolean output of a step records whether
that step dispatched a network request. -/
inductive Event where
  | tick (fd : List (String × String))
  | netOk (v : Verdict)
  | netErr
  | load
deriving DecidableEq

/-- One step of the panel.  The tick is the interval callback: if an update
is pending it returns without touching anything (`hasChanges` is not
invoked); otherwise the comparator runs (advancing the snapshot) and, on a
change, the synchronous prefix of `setPreviewData` runs and a request is
dispatched. -/
def stepEv (s : PanelState) : Event → PanelState × Bool
  | .tick fd =>
    if s.hasPendingUpdate then (s, false)
    else
      let c := hasChanges s.oldData fd
      if c.1 then (setPreviewDataStart { s with oldData := c.2 }, true)
      else ({ s with oldData := c.2 }, false)
  | .netOk v => ((setPreviewDataResolve s v).1, false)
  | .netErr => (setPreviewDataReject s, false)
  | .load => (handleLoad s, false)

/-- Run a sequence of events. -/
def runPanel (s : PanelState) : List Event → PanelState
  | [] => s
  | e :: es => runPanel (stepEv s e).1 es

/-- State of the panel just before step `n` of the run. -/
def stateBefore (s : PanelState) (es : List Event) (n : Nat) : PanelState :=
  runPanel s (es.take n)

/-- Whether step `n` of the run dispatches a network request. -/
def dispatchesAt (s : PanelState) (es : List Event) (n : Nat) : Bool :=
  (stepEv (stateBefore s es n) (es.getD n Event.netErr)).2

/-!
## Concrete panel states

Small concrete values used to evaluate the theorems on explicit inputs.
-/

/-- A preview URL as the panel would see it. -/
def sampleUrl : Url :=
  { base := "http://localhost/admin/pages/3/edit/preview/"
    params := [("in_preview_panel", "true"), ("mode", "desktop")] }

/-- A displayed preview surface with a live content window. -/
def sampleIframe : Iframe :=
  { src := sampleUrl
    attrs := [("title", "Preview"), ("class", "preview-panel__iframe")]
    contentWindow := some { scrollX := 3, scrollY := 10 } }

/-- An idle panel: nothing pending, spinner hidden, clean flags. -/
def samplePanel : PanelState :=
  { hasPendingUpdate := false
    spinnerHidden := true
    hasErrors := false
    unavailable := false
    iframe := sampleIframe
    iframeLastScroll := { top := 0, left := 0 }
    newIframe := none
    oldData := [("title", "hello")]
    newTabHref := { base := "http://localhost/admin/pages/3/edit/preview/"
                    params := [("mode", "desktop")] } }

/-- The same panel while a request is in flight. -/
def pendingPanel : PanelState :=
  { samplePanel with hasPendingUpdate := true, spinnerHidden := false }

/-- A panel whose displayed surface carries a `style` attribute. -/
def styledPanel : PanelState :=
  { samplePanel with
    iframe := { sampleIframe with
      attrs := [("style", "border: none"), ("title", "Preview")] } }

/-- The styled panel right after a successful response: the invisible
replacement iframe exists and awaits its load event. -/
def swapReadyPanel : PanelState :=
  (setPreviewData styledPanel (FetchResult.ok { is_valid := true, is_available := true })).1

/-- Event list driving the single-flight witness: a tick that dispatches, a
network failure that clears the pending flag, a second tick that
dispatches. -/
def c1Events : List Event :=
  [Event.tick [("title", "draft 1")], Event.netErr, Event.tick [("title", "draft 2")]]

/-!
## Proofs

Round-trip lemmas for the serializer, then the claim theorems.
-/

theorem percentDecode_cons_ne (c : Char) (rest : List Char) (h : (c == '%') = false) :
    percentDecode (c :: rest) = (percentDecode rest).map (fun l => plainByte c :: l) := by
  rw [percentDecode.eq_def]
  simp [h]

theorem percentDecode_pct (d1 d2 : Char) (rest : List Char) :
    percentDecode ('%' :: d1 :: d2 :: rest) =
      (percentDecode rest).map (fun l => (hexVal d1 * 16 + hexVal d2) :: l) := by
  rw [percentDecode.eq_def]
  simp

theorem percentDecode_encodeByte (b : Nat) (hb : b < 256) (rest : List Char) :
    percentDecode (encodeByte b ++ rest) = (percentDecode rest).map (fun l => b :: l) := by
  have hsafe : ∀ n < 256, isSafeByte n = true →
      ((Char.ofNat n == '%') = false ∧ (Char.ofNat n == '+') = false ∧
        (Char.ofNat n).toNat = n) := by decide
  have hhex : ∀ n < 16, hexVal (hexDigitChar n) = n := by decide
  by_cases hs : isSafeByte b
  · obtain ⟨h1, h2, h3⟩ := hsafe b hb hs
    have henc : encodeByte b = [Char.ofNat b] := by rw [encodeByte]; simp [hs]
    rw [henc, List.cons_append, List.nil_append, percentDecode_cons_ne _ _ h1]
    simp [plainByte, h2, h3]
  · by_cases h32 : b = 32
    · subst h32
      have henc : encodeByte 32 = ['+'] := rfl
      rw [henc, List.cons_append, List.nil_append,
        percentDecode_cons_ne _ _ (by decide)]
      simp [plainByte]
    · have hb32 : (b == 32) = false := by simp [h32]
      have e1 : hexVal (hexDigitChar (b / 16)) = b / 16 := hhex _ (by omega)
      have e2 : hexVal (hexDigitChar (b % 16)) = b % 16 := hhex _ (by omega)
      have hsum : b / 16 * 16 + b % 16 = b := by omega
      have henc : encodeByte b = ['%', hexDigitChar (b / 16), hexDigitChar (b % 16)] := by
        rw [encodeByte]; simp [hs, hb32]
      rw [henc]
      simp only [List.cons_append, List.nil_append]
      rw [percentDecode_pct, e1, e2, hsum]

theorem percentDecode_flatMap (bs : List Nat) (h : ∀ b ∈ bs, b < 256) :
    percentDecode (bs.flatMap encodeByte) = some bs := by
  induction bs with
  | nil => simp [percentDecode]
  | cons b rest ih =>
    have hb : b < 256 := h b (by simp)
    have hrest : ∀ x ∈ rest, x < 256 := fun x hx => h x (by simp [hx])
    simp [List.flatMap_cons, percentDecode_encodeByte b hb, ih hrest]

theorem utf8Decode_encode (n : Nat) (rest : List Nat) :
    utf8Decode (utf8Encode n ++ rest) = n :: utf8Decode rest := by
  by_cases h1 : n < 0x80
  · have henc : utf8Encode n = [n] := by rw [utf8Encode]; simp [h1]
    rw [henc, List.cons_append, List.nil_append, utf8Decode]
    simp [decodeCp, byteLen, h1]
  · by_cases h2 : n < 0x800
    · have e0 : ¬(0xC0 + n / 64 < 0x80) := by omega
      have e1 : 0xC0 + n / 64 < 0xE0 := by omega
      have henc : utf8Encode n = [0xC0 + n / 64, 0x80 + n % 64] := by
        rw [utf8Encode]; simp [h1, h2]
      rw [henc]
      simp only [List.cons_append, List.nil_append]
      rw [utf8Decode]
      simp [decodeCp, byteLen, e0, e1]
      omega
    · by_cases h3 : n < 0x10000
      · have e0 : ¬(0xE0 + n / 4096 < 0x80) := by omega
        have e1 : ¬(0xE0 + n / 4096 < 0xE0) := by omega
        have e2 : 0xE0 + n / 4096 < 0xF0 := by omega
        have henc : utf8Encode n = [0xE0 + n / 4096, 0x80 + n / 64 % 64, 0x80 + n % 64] := by
          rw [utf8Encode]; simp [h1, h2, h3]
        rw [henc]
        simp only [List.cons_append, List.nil_append]
        rw [utf8Decode]
        simp [decodeCp, byteLen, e0, e1, e2]
        omega
      · have e0 : ¬(0xF0 + n / 262144 < 0x80) := by omega
        have e1 : ¬(0xF0 + n / 262144 < 0xE0) := by omega
        have e2 : ¬(0xF0 + n / 262144 < 0xF0) := by omega
        have henc : utf8Encode n =
            [0xF0 + n / 262144, 0x80 + n / 4096 % 64, 0x80 + n / 64 % 64, 0x80 + n % 64] := by
          rw [utf8Encode]; simp [h1, h2, h3]
        rw [henc]
        simp only [List.cons_append, List.nil_append]
        rw [utf8Decode]
        simp [decodeCp, byteLen, e0, e1, e2]
        omega

theorem char_toNat_lt (c : Char) : c.toNat < 0x110000 := by
  have h := c.valid
  rcases h with h | ⟨h1, h2⟩
  · have : c.toNat < 0xd800 := h
    omega
  · exact h2

theorem utf8Encode_bytes_lt (n : Nat) (hn : n < 0x110000) :
    ∀ b ∈ utf8Encode n, b < 256 := by
  intro b hb
  by_cases h1 : n < 0x80
  · simp [utf8Encode, h1] at hb; omega
  · by_cases h2 : n < 0x800
    · simp [utf8Encode, h1, h2] at hb; rcases hb with hb | hb <;> omega
    · by_cases h3 : n < 0x10000
      · simp [utf8Encode, h1, h2, h3] at hb; rcases hb with hb | hb | hb <;> omega
      · simp [utf8Encode, h1, h2, h3] at hb; rcases hb with hb | hb | hb | hb <;> omega

theorem utf8Bytes_lt (cs : List Char) : ∀ b ∈ utf8Bytes cs, b < 256 := by
  intro b hb
  simp only [utf8Bytes, List.mem_flatMap] at hb
  obtain ⟨c, _, hbc⟩ := hb
  exact utf8Encode_bytes_lt c.toNat (char_toNat_lt c) b hbc

theorem utf8Decode_utf8Bytes (cs : List Char) :
    utf8Decode (utf8Bytes cs) = cs.map Char.toNat := by
  induction cs with
  | nil => rw [utf8Bytes]; simp [utf8Decode]
  | cons c rest ih =>
    show utf8Decode (utf8Encode c.toNat ++ utf8Bytes rest) = _
    rw [utf8Decode_encode, ih, List.map_cons]

theorem formUrlEncodeChars_inj {a b : List Char}
    (h : formUrlEncodeChars a = formUrlEncodeChars b) : a = b := by
  have ha : percentDecode (formUrlEncodeChars a) = some (utf8Bytes a) :=
    percentDecode_flatMap _ (utf8Bytes_lt a)
  have hb : percentDecode (formUrlEncodeChars b) = some (utf8Bytes b) :=
    percentDecode_flatMap _ (utf8Bytes_lt b)
  rw [h, hb] at ha
  have hbytes : utf8Bytes b = utf8Bytes a := by
    simpa using ha
  have h3 : b.map Char.toNat = a.map Char.toNat := by
    rw [← utf8Decode_utf8Bytes, ← utf8Decode_utf8Bytes, hbytes]
  have hinj : Function.Injective Char.toNat := by
    intro x y hxy
    exact Char.ext (UInt32.ext hxy)
  exact (List.map_injective_iff.mpr hinj h3).symm

theorem paramsGet_paramsSet (ps : List (String × String)) (k v : String) :
    paramsGet (paramsSet ps k v) k = some v := by
  induction ps with
  | nil => simp [paramsSet, paramsGet]
  | cons p rest ih =>
    cases p with
    | mk k2 v2 =>
      by_cases h : (k2 == k) = true
      · simp [paramsSet, h, paramsGet]
      · have h2 : (k2 == k) = false := by revert h; cases k2 == k <;> simp
        simp [paramsSet, h2, paramsGet, ih]

/-- C2.  For every submission whose network exchange fails, the submission
clears the pending flag, hides the loading indicator, performs no frame
swap, leaves the error and unavailable flags and the displayed surface
unchanged, and re-raises the failure; `handlePreview` converts that failure
into exactly one alert. -/
theorem preview_c2_failure_cleanup (s : PanelState) :
    (setPreviewData s FetchResult.err).1.hasPendingUpdate = false ∧
    (setPreviewData s FetchResult.err).1.spinnerHidden = true ∧
    (setPreviewData s FetchResult.err).1.hasErrors = s.hasErrors ∧
    (setPreviewData s FetchResult.err).1.unavailable = s.unavailable ∧
    (setPreviewData s FetchResult.err).1.iframe = s.iframe ∧
    (setPreviewData s FetchResult.err).1.newIframe = s.newIframe ∧
    (setPreviewData s FetchResult.err).2 = PromiseResult.rejected ∧
    (handlePreview s FetchResult.err).2.2.count Action.alert = 1 := by
  refine ⟨rfl, rfl, rfl, rfl, rfl, rfl, rfl, ?_⟩
  simp [handlePreview, setPreviewData, setPreviewDataReject, setPreviewDataStart]

/-- C6.  For every response from the rendering endpoint, the promise
resolves to `is_valid`, the error flag is set iff `is_valid` is false, the
unavailable flag is set iff `is_available` is false, and the frame swap is
started regardless of the verdict. -/
theorem preview_c6_verdict (s : PanelState) (v : Verdict) :
    (setPreviewData s (FetchResult.ok v)).2 = PromiseResult.resolved v.is_valid ∧
    (setPreviewData s (FetchResult.ok v)).1.hasErrors = !v.is_valid ∧
    (setPreviewData s (FetchResult.ok v)).1.unavailable = !v.is_available ∧
    (setPreviewData s (FetchResult.ok v)).1.newIframe =
      some { src := s.iframe.src
             attrs := [("style", placeholderStyle)]
             contentWindow := some { scrollX := 0, scrollY := 0 } } := by
  cases hcw : s.iframe.contentWindow <;>
    simp [setPreviewData, setPreviewDataResolve, setPreviewDataStart, applyVerdict,
      updateIframeLastScroll, reloadIframe, hcw]

/-- C5.  For every successful swap, the scroll position applied to the new
surface equals the position captured from the displayed surface during
response handling. -/
theorem preview_c5_scroll (s : PanelState) (v : Verdict) (w : ContentWindow)
    (hw : s.iframe.contentWindow = some w) :
    (handleLoad (setPreviewData s (FetchResult.ok v)).1).iframe.contentWindow = some w ∧
    (setPreviewData s (FetchResult.ok v)).1.iframeLastScroll =
      { top := w.scrollY, left := w.scrollX } := by
  cases w with
  | mk wx wy =>
    simp [setPreviewData, setPreviewDataResolve, setPreviewDataStart, applyVerdict,
      updateIframeLastScroll, hw, reloadIframe, handleLoad]

theorem preview_c5_scroll_witness :
    samplePanel.iframe.contentWindow = some { scrollX := 3, scrollY := 10 } ∧
    ((handleLoad (setPreviewData samplePanel
        (FetchResult.ok { is_valid := true, is_available := true })).1).iframe.contentWindow =
          some { scrollX := 3, scrollY := 10 } ∧
      (setPreviewData samplePanel
        (FetchResult.ok { is_valid := true, is_available := true })).1.iframeLastScroll =
          { top := 10, left := 3 }) :=
  ⟨rfl, preview_c5_scroll samplePanel { is_valid := true, is_available := true }
    { scrollX := 3, scrollY := 10 } rfl⟩

/-- C9.  A tick that arrives while an update is pending leaves the panel
state (in particular the stored snapshot) completely unchanged, so a form
change made during the pending cycle is still reported by the first tick
after the pending flag clears. -/
theorem preview_c9_snapshot_not_absorbed (s s2 : PanelState)
    (fd : List (String × String))
    (hp : s.hasPendingUpdate = true) (hp2 : s2.hasPendingUpdate = false)
    (hod : s2.oldData = s.oldData)
    (hch : serializePayload fd ≠ serializePayload s.oldData) :
    stepEv s (Event.tick fd) = (s, false) ∧
    (stepEv s2 (Event.tick fd)).2 = true := by
  constructor
  · simp [stepEv, hp]
  · simp [stepEv, hp2, hasChanges, hod, bne_iff_ne]
    rw [if_neg (Ne.symm hch)]

theorem preview_c9_snapshot_not_absorbed_witness :
    pendingPanel.hasPendingUpdate = true ∧
    samplePanel.hasPendingUpdate = false ∧
    samplePanel.oldData = pendingPanel.oldData ∧
    serializePayload [("title", "world")] ≠ serializePayload pendingPanel.oldData ∧
    (stepEv pendingPanel (Event.tick [("title", "world")]) = (pendingPanel, false) ∧
      (stepEv samplePanel (Event.tick [("title", "world")])).2 = true) :=
  ⟨rfl, rfl, rfl, by decide,
    preview_c9_snapshot_not_absorbed pendingPanel samplePanel [("title", "world")]
      rfl rfl rfl (by decide)⟩

/-- C10.  When the submission behind a new-tab request fails at the network
level, `handlePreview` converts the rejection into fulfillment with no
value, so the new-tab handler takes the invalid-verdict branch: the editor
window is refocused and the opened tab is closed, never navigated. -/
theorem preview_c10_newtab_failure (s : PanelState) :
    (handlePreview s FetchResult.err).2.1 = none ∧
    (handlePreviewInNewTab s FetchResult.err).2 =
      [Action.openTab, Action.focusTab, Action.dispatch, Action.alert,
        Action.refocusMain, Action.closeTab] ∧
    (∀ u : Url, Action.navigateTab u ∉ (handlePreviewInNewTab s FetchResult.err).2) := by
  refine ⟨rfl, rfl, ?_⟩
  intro u
  simp [handlePreviewInNewTab, handlePreview, setPreviewData, setPreviewDataReject,
    setPreviewDataStart]

/-- C7.  A new-tab request opens and focuses the blank tab before the
submission is dispatched; a valid verdict navigates the tab to the new-tab
target, an invalid verdict refocuses the editor window and closes the tab
without navigating it. -/
theorem preview_c7_newtab (s : PanelState) (v : Verdict) :
    (handlePreviewInNewTab s (FetchResult.ok v)).2.take 3 =
      [Action.openTab, Action.focusTab, Action.dispatch] ∧
    (if v.is_valid then
      (handlePreviewInNewTab s (FetchResult.ok v)).2 =
        [Action.openTab, Action.focusTab, Action.dispatch,
          Action.navigateTab s.newTabHref]
    else
      (handlePreviewInNewTab s (FetchResult.ok v)).2 =
        [Action.openTab, Action.focusTab, Action.dispatch,
          Action.refocusMain, Action.closeTab]) := by
  cases hcw : s.iframe.contentWindow <;> cases hv : v.is_valid <;>
    simp [handlePreviewInNewTab, handlePreview, setPreviewData, setPreviewDataResolve,
      setPreviewDataStart, applyVerdict, updateIframeLastScroll, reloadIframe, hcw, hv]

/-- C8.  A preview-mode change rewrites the surface URL to carry
`mode=m`, points the new-tab target at the same URL with the
`in_preview_panel` marker removed, and dispatches a fresh submission
unconditionally (no pending or form-change precondition). -/
theorem preview_c8_mode_change (s : PanelState) (mode : String) (r : FetchResult) :
    paramsGet (handlePreviewModeChange s mode r).1.iframe.src.params "mode" = some mode ∧
    (handlePreviewModeChange s mode r).1.newTabHref.base =
      (handlePreviewModeChange s mode r).1.iframe.src.base ∧
    (handlePreviewModeChange s mode r).1.newTabHref.params =
      paramsDeleteKey (handlePreviewModeChange s mode r).1.iframe.src.params
        "in_preview_panel" ∧
    Action.dispatch ∈ (handlePreviewModeChange s mode r).2 := by
  cases r <;> cases hcw : s.iframe.contentWindow <;>
    simp [handlePreviewModeChange, handlePreview, setPreviewData, setPreviewDataResolve,
      setPreviewDataReject, setPreviewDataStart, applyVerdict, updateIframeLastScroll,
      reloadIframe, hcw, paramsGet_paramsSet]

theorem encodeByte_ne_sep : ∀ b < 256, ∀ c ∈ encodeByte b, c ≠ '&' ∧ c ≠ '=' := by decide

theorem amp_not_mem_formUrlEncodeChars (cs : List Char) : '&' ∉ formUrlEncodeChars cs := by
  intro hmem
  simp only [formUrlEncodeChars, List.mem_flatMap] at hmem
  obtain ⟨b, hb, hcb⟩ := hmem
  exact (encodeByte_ne_sep b (utf8Bytes_lt cs b hb) '&' hcb).1 rfl

theorem amp_not_mem_encodePairChars (kv : String × String) : '&' ∉ encodePairChars kv := by
  intro hmem
  simp only [encodePairChars, List.mem_append, List.mem_cons] at hmem
  rcases hmem with h | h | h
  · exact amp_not_mem_formUrlEncodeChars _ h
  · exact absurd h (by decide)
  · exact amp_not_mem_formUrlEncodeChars _ h

theorem append_amp_inj (x : List Char) (t u : List Char) : ∀ y : List Char,
    '&' ∉ x → '&' ∉ y → x ++ '&' :: t = y ++ '&' :: u → x = y ∧ t = u := by
  induction x with
  | nil =>
    intro y hx hy h
    cases y with
    | nil =>
      simp only [List.nil_append, List.cons.injEq] at h
      exact ⟨rfl, h.2⟩
    | cons d y2 =>
      simp only [List.nil_append, List.cons_append, List.cons.injEq] at h
      apply absurd hy
      simp only [not_not]
      rw [← h.1]
      exact List.mem_cons_self '&' y2
  | cons c x2 ih =>
    intro y hx hy h
    cases y with
    | nil =>
      simp only [List.cons_append, List.nil_append, List.cons.injEq] at h
      apply absurd hx
      simp only [not_not]
      rw [h.1]
      exact List.mem_cons_self '&' x2
    | cons d y2 =>
      simp only [List.cons_append, List.cons.injEq] at h
      obtain ⟨hcd, h2⟩ := h
      subst hcd
      have hx2 : '&' ∉ x2 := fun hm => hx (List.mem_cons_of_mem _ hm)
      have hy2 : '&' ∉ y2 := fun hm => hy (List.mem_cons_of_mem _ hm)
      obtain ⟨he, ht⟩ := ih y2 hx2 hy2 h2
      exact ⟨by rw [he], ht⟩

theorem serializeChars_cons_of_ne_nil (kv : String × String)
    (l : List (String × String)) (h : l ≠ []) :
    serializeChars (kv :: l) = encodePairChars kv ++ '&' :: serializeChars l := by
  cases l with
  | nil => exact absurd rfl h
  | cons y l2 => rfl

theorem encodePairChars_inj_val (k v v2 : String)
    (h : encodePairChars (k, v) = encodePairChars (k, v2)) : v = v2 := by
  simp only [encodePairChars] at h
  have h2 := List.append_cancel_left h
  have h3 : formUrlEncodeChars v.data = formUrlEncodeChars v2.data := by
    simpa using h2
  have h4 := formUrlEncodeChars_inj h3
  cases v
  cases v2
  exact congrArg String.mk h4

theorem serializeChars_value_ne (a : List (String × String)) (k v v2 : String)
    (b : List (String × String)) (hv : v ≠ v2) :
    serializeChars (a ++ (k, v) :: b) ≠ serializeChars (a ++ (k, v2) :: b) := by
  induction a with
  | nil =>
    cases b with
    | nil =>
      intro h
      have h2 : encodePairChars (k, v) = encodePairChars (k, v2) := h
      exact hv (encodePairChars_inj_val k v v2 h2)
    | cons y b2 =>
      intro h
      simp only [List.nil_append] at h
      rw [serializeChars_cons_of_ne_nil (k, v) (y :: b2) (by simp),
        serializeChars_cons_of_ne_nil (k, v2) (y :: b2) (by simp)] at h
      obtain ⟨he, _⟩ := append_amp_inj _ _ _ _
        (amp_not_mem_encodePairChars _) (amp_not_mem_encodePairChars _) h
      exact hv (encodePairChars_inj_val k v v2 he)
  | cons kv a2 ih =>
    intro h
    rw [List.cons_append, List.cons_append,
      serializeChars_cons_of_ne_nil kv (a2 ++ (k, v) :: b) (by simp),
      serializeChars_cons_of_ne_nil kv (a2 ++ (k, v2) :: b) (by simp)] at h
    have h2 := List.append_cancel_left h
    have h3 : serializeChars (a2 ++ (k, v) :: b) = serializeChars (a2 ++ (k, v2) :: b) := by
      simpa using h2
    exact ih h3

theorem serializePayload_value_ne (a : List (String × String)) (k v v2 : String)
    (b : List (String × String)) (hv : v ≠ v2) :
    serializePayload (a ++ (k, v) :: b) ≠ serializePayload (a ++ (k, v2) :: b) := by
  intro h
  exact serializeChars_value_ne a k v v2 b hv (congrArg String.data h)

/-- C4.  After a single field-value change, the next `hasChanges` call
reports a change; with the form unchanged afterwards, the following call
reports none; the stored snapshot is advanced by every call regardless of
the result; and two payloads with identical serialization compare as
unchanged. -/
theorem preview_c4_comparator (a b : List (String × String)) (k v v2 : String)
    (x y : List (String × String)) (hv : v ≠ v2)
    (hxy : serializePayload x = serializePayload y) :
    (hasChanges (a ++ (k, v) :: b) (a ++ (k, v2) :: b)).1 = true ∧
    (hasChanges (a ++ (k, v) :: b) (a ++ (k, v2) :: b)).2 = a ++ (k, v2) :: b ∧
    (hasChanges (a ++ (k, v2) :: b) (a ++ (k, v2) :: b)).1 = false ∧
    (hasChanges (a ++ (k, v2) :: b) (a ++ (k, v2) :: b)).2 = a ++ (k, v2) :: b ∧
    (hasChanges x y).1 = false := by
  refine ⟨?_, rfl, ?_, rfl, ?_⟩
  · simp only [hasChanges, bne_iff_ne, ne_eq]
    exact serializePayload_value_ne a k v v2 b hv
  · simp [hasChanges]
  · simp [hasChanges, hxy]

theorem preview_c4_comparator_witness :
    ("1" : String) ≠ "2" ∧
    serializePayload [("k", "v")] = serializePayload [("k", "v")] ∧
    ((hasChanges [("a", "1"), ("b", "x")] [("a", "2"), ("b", "x")]).1 = true ∧
      (hasChanges [("a", "1"), ("b", "x")] [("a", "2"), ("b", "x")]).2 =
        [("a", "2"), ("b", "x")] ∧
      (hasChanges [("a", "2"), ("b", "x")] [("a", "2"), ("b", "x")]).1 = false ∧
      (hasChanges [("a", "2"), ("b", "x")] [("a", "2"), ("b", "x")]).2 =
        [("a", "2"), ("b", "x")] ∧
      (hasChanges [("k", "v")] [("k", "v")]).1 = false) :=
  ⟨by decide, rfl,
    preview_c4_comparator [] [("b", "x")] "a" "1" "2" [("k", "v")] [("k", "v")]
      (by decide) rfl⟩

theorem getAttr_append_none (l1 l2 : List (String × String)) (k : String)
    (h : getAttr l1 k = none) : getAttr (l1 ++ l2) k = getAttr l2 k := by
  induction l1 with
  | nil => simp
  | cons p rest ih =>
    cases p with
    | mk k2 v =>
      by_cases hk : (k2 == k) = true
      · simp [getAttr, hk] at h
      · have hk2 : (k2 == k) = false := by revert hk; cases k2 == k <;> simp
        simp only [getAttr, hk2] at h
        simp only [List.cons_append, getAttr, hk2]
        exact ih h

theorem getAttr_none_of_any_false (l : List (String × String)) (k : String)
    (h : l.any (fun p => p.1 == k) = false) : getAttr l k = none := by
  induction l with
  | nil => rfl
  | cons p rest ih =>
    simp only [List.any_cons, Bool.or_eq_false_iff] at h
    cases p with
    | mk k2 v => simp [getAttr, h.1, ih h.2]

theorem getAttr_map_set (l : List (String × String)) (k v : String)
    (h : l.any (fun p => p.1 == k) = true) :
    getAttr (l.map (fun p => if p.1 == k then (k, v) else p)) k = some v := by
  induction l with
  | nil => simp at h
  | cons p rest ih =>
    cases p with
    | mk k2 v2 =>
      simp only [beq_iff_eq] at ih
      simp only [List.map_cons]
      by_cases hk : (k2 == k) = true
      · rw [if_pos hk]
        simp [getAttr]
      · have hk2 : (k2 == k) = false := by revert hk; cases k2 == k <;> simp
        rw [if_neg (by simp [hk2])]
        simp only [List.any_cons] at h
        have h2 : rest.any (fun p => p.1 == k) = true := by
          simpa [hk2] using h
        simp [getAttr, hk2, ih h2]

theorem getAttr_map_set_ne (l : List (String × String)) (k v k3 : String)
    (hne : (k == k3) = false) :
    getAttr (l.map (fun p => if p.1 == k then (k, v) else p)) k3 = getAttr l k3 := by
  induction l with
  | nil => rfl
  | cons p rest ih =>
    cases p with
    | mk k2 v2 =>
      simp only [beq_iff_eq] at ih
      simp only [List.map_cons]
      by_cases hk : (k2 == k) = true
      · have hkeq : k2 = k := by simpa using hk
        subst hkeq
        rw [if_pos hk]
        simp [getAttr, hne, ih]
      · have hk2 : (k2 == k) = false := by revert hk; cases k2 == k <;> simp
        rw [if_neg (by simp [hk2])]
        simp [getAttr, ih]

theorem getAttr_append_single_ne (l : List (String × String)) (k v k3 : String)
    (hne : (k == k3) = false) :
    getAttr (l ++ [(k, v)]) k3 = getAttr l k3 := by
  induction l with
  | nil => simp [getAttr, hne]
  | cons p rest ih =>
    cases p with
    | mk k2 v2 => simp [getAttr, ih]

theorem getAttr_setAttribute_self (l : List (String × String)) (k v : String) :
    getAttr (setAttribute l k v) k = some v := by
  by_cases h : l.any (fun p => p.1 == k) = true
  · simp only [setAttribute, h, if_true]
    exact getAttr_map_set l k v h
  · have h2 : l.any (fun p => p.1 == k) = false := by
      revert h; cases l.any (fun p => p.1 == k) <;> simp
    have h3 : getAttr l k = none := getAttr_none_of_any_false l k h2
    simp only [setAttribute, h2, Bool.false_eq_true, if_false]
    rw [getAttr_append_none l _ k h3]
    simp [getAttr]

theorem getAttr_setAttribute_ne (l : List (String × String)) (k v k3 : String)
    (hne : (k == k3) = false) :
    getAttr (setAttribute l k v) k3 = getAttr l k3 := by
  by_cases h : l.any (fun p => p.1 == k) = true
  · simp only [setAttribute, h, if_true]
    exact getAttr_map_set_ne l k v k3 hne
  · have h2 : l.any (fun p => p.1 == k) = false := by
      revert h; cases l.any (fun p => p.1 == k) <;> simp
    simp only [setAttribute, h2, Bool.false_eq_true, if_false]
    exact getAttr_append_single_ne l k v k3 hne

theorem copyAttrs_cons (kv : String × String) (l acc : List (String × String)) :
    copyAttrs (kv :: l) acc =
      copyAttrs l (if kv.1 == "src" then acc else setAttribute acc kv.1 kv.2) := rfl

theorem getAttr_copyAttrs_not_mem (l : List (String × String)) (k : String) :
    ∀ acc, (∀ kv ∈ l, (kv.1 == k) = false) →
    getAttr (copyAttrs l acc) k = getAttr acc k := by
  induction l with
  | nil => intro acc _; rfl
  | cons kv rest ih =>
    intro acc h
    rw [copyAttrs_cons]
    by_cases hsrc : (kv.1 == "src") = true
    · rw [if_pos hsrc]
      exact ih _ (fun x hx => h x (by simp [hx]))
    · rw [if_neg hsrc]
      rw [ih _ (fun x hx => h x (by simp [hx]))]
      exact getAttr_setAttribute_ne acc kv.1 kv.2 k (h kv (by simp))

theorem getAttr_copyAttrs_mem (l : List (String × String)) (k v : String) :
    ∀ acc, (l.map Prod.fst).Nodup → (k, v) ∈ l → (k == "src") = false →
    getAttr (copyAttrs l acc) k = some v := by
  induction l with
  | nil => intro acc _ hmem _; simp at hmem
  | cons kv rest ih =>
    intro acc hnd hmem hsrc
    rw [copyAttrs_cons]
    rcases List.mem_cons.mp hmem with heq | hmem2
    · have hkv : kv = (k, v) := heq.symm
      subst hkv
      rw [if_neg (by simpa using hsrc)]
      simp only [List.map_cons, List.nodup_cons] at hnd
      have hrest : ∀ x ∈ rest, (x.1 == k) = false := by
        intro x hx
        have hxne : x.1 ≠ k := by
          intro hxx
          exact hnd.1 (hxx ▸ List.mem_map_of_mem Prod.fst hx)
        simpa using hxne
      rw [getAttr_copyAttrs_not_mem rest k _ hrest]
      exact getAttr_setAttribute_self acc k v
    · have hnd2 : (rest.map Prod.fst).Nodup := by
        simp only [List.map_cons, List.nodup_cons] at hnd
        exact hnd.2
      exact ih _ hnd2 hmem2 hsrc

/-- C3 (amended).  After a successful swap, every attribute of the old
surface other than the source URL attribute and the inline `style`
attribute is present with an equal value on the new surface; the `style`
attribute itself is reset to the empty serialization by the final
visibility reset (`newIframe.style = null`). -/
theorem preview_c3_attrs_preserved (s : PanelState) (ni : Iframe) (k v : String)
    (hni : s.newIframe = some ni)
    (hnd : (s.iframe.attrs.map Prod.fst).Nodup)
    (hmem : (k, v) ∈ s.iframe.attrs)
    (hsrc : (k == "src") = false) (hstyle : (k == "style") = false) :
    getAttr (handleLoad s).iframe.attrs k = some v ∧
    getAttr (handleLoad s).iframe.attrs "style" = some "" := by
  have hattrs : (handleLoad s).iframe.attrs =
      setAttribute (copyAttrs s.iframe.attrs ni.attrs) "style" "" := by
    simp [handleLoad, hni]
  constructor
  · rw [hattrs]
    have hsym : (("style" : String) == k) = false := by
      have : k ≠ "style" := by simpa using hstyle
      simp [Ne.symm this]
    rw [getAttr_setAttribute_ne _ _ _ _ hsym]
    exact getAttr_copyAttrs_mem s.iframe.attrs k v ni.attrs hnd hmem hsrc
  · rw [hattrs]
    exact getAttr_setAttribute_self _ _ _

theorem preview_c3_attrs_preserved_witness :
    swapReadyPanel.newIframe = some
      { src := sampleUrl
        attrs := [("style", placeholderStyle)]
        contentWindow := some { scrollX := 0, scrollY := 0 } } ∧
    (swapReadyPanel.iframe.attrs.map Prod.fst).Nodup ∧
    ("title", "Preview") ∈ swapReadyPanel.iframe.attrs ∧
    (("title" : String) == "src") = false ∧
    (("title" : String) == "style") = false ∧
    (getAttr (handleLoad swapReadyPanel).iframe.attrs "title" = some "Preview" ∧
      getAttr (handleLoad swapReadyPanel).iframe.attrs "style" = some "") :=
  ⟨by decide, by decide, by decide, by decide, by decide,
    preview_c3_attrs_preserved swapReadyPanel
      { src := sampleUrl
        attrs := [("style", placeholderStyle)]
        contentWindow := some { scrollX := 0, scrollY := 0 } }
      "title" "Preview" (by decide) (by decide) (by decide) (by decide) (by decide)⟩

/-- C3 (counterexample).  A successful swap of a surface that carries an
inline `style` attribute: the attribute is not preserved with an equal value
on the new surface — the final visibility reset clears it — refuting the
claim that every non-`src` attribute survives the swap unchanged. -/
theorem preview_c3_style_counterexample :
    ("style", "border: none") ∈ styledPanel.iframe.attrs ∧
    "style" ≠ "src" ∧
    getAttr (handleLoad (setPreviewData styledPanel
      (FetchResult.ok { is_valid := true, is_available := true })).1).iframe.attrs
        "style" = some "" ∧
    some "" ≠ some ("border: none" : String) := by
  refine ⟨by decide, by decide, ?_, by decide⟩
  decide

theorem runPanel_append (a : List Event) : ∀ (s : PanelState) (b : List Event),
    runPanel s (a ++ b) = runPanel (runPanel s a) b := by
  induction a with
  | nil => intro s b; rfl
  | cons e es ih => intro s b; simp only [List.cons_append, runPanel]; exact ih _ b

theorem stateBefore_succ (s : PanelState) (es : List Event) (n : Nat)
    (h : n < es.length) :
    stateBefore s es (n + 1) =
      (stepEv (stateBefore s es n) (es.getD n Event.netErr)).1 := by
  have hx : es[n]? = some es[n] := List.getElem?_eq_getElem h
  have htake : es.take (n + 1) = es.take n ++ [es.getD n Event.netErr] := by
    rw [List.take_succ, hx, List.getD_eq_getElem _ _ h]
    rfl
  rw [stateBefore, htake, runPanel_append]
  rfl

theorem stateBefore_stable (s : PanelState) (es : List Event) (n : Nat)
    (h : es.length ≤ n) : stateBefore s es n = runPanel s es := by
  rw [stateBefore, List.take_of_length_le h]

theorem dispatch_step (s : PanelState) (e : Event) (h : (stepEv s e).2 = true) :
    s.hasPendingUpdate = false ∧ (stepEv s e).1.hasPendingUpdate = true := by
  cases e with
  | tick fd =>
    by_cases hp : s.hasPendingUpdate = true
    · simp [stepEv, hp] at h
    · have hp2 : s.hasPendingUpdate = false := by
        revert hp; cases s.hasPendingUpdate <;> simp
      refine ⟨hp2, ?_⟩
      cases hc : (hasChanges s.oldData fd).1 with
      | false => simp [stepEv, hp2, hc] at h
      | true => simp [stepEv, hp2, hc, setPreviewDataStart]
  | netOk v => simp [stepEv] at h
  | netErr => simp [stepEv] at h
  | load => simp [stepEv] at h

theorem pending_resolve_eq (s : PanelState) (v : Verdict) :
    (setPreviewDataResolve s v).1.hasPendingUpdate = s.hasPendingUpdate := by
  cases hcw : s.iframe.contentWindow <;>
    simp [setPreviewDataResolve, reloadIframe, updateIframeLastScroll, applyVerdict, hcw]

theorem flip_event (s : PanelState) (e : Event)
    (h1 : s.hasPendingUpdate = true)
    (h2 : (stepEv s e).1.hasPendingUpdate = false) :
    e = Event.netErr ∨ e = Event.load := by
  cases e with
  | tick fd =>
    simp [stepEv, h1] at h2
  | netOk v =>
    simp only [stepEv] at h2
    rw [pending_resolve_eq, h1] at h2
    simp at h2
  | netErr => exact Or.inl rfl
  | load => exact Or.inr rfl

theorem exists_flip (f : Nat → Bool) : ∀ (b a : Nat), a ≤ b → f a = true → f b = false →
    ∃ k, a ≤ k ∧ k < b ∧ f k = true ∧ f (k + 1) = false := by
  intro b
  induction b with
  | zero =>
    intro a hab ha hb
    have ha0 : a = 0 := by omega
    rw [ha0, hb] at ha
    cases ha
  | succ b ih =>
    intro a hab ha hb
    have hne : a ≠ b + 1 := by
      intro hx
      rw [hx, hb] at ha
      cases ha
    by_cases hfb : f b = true
    · exact ⟨b, by omega, Nat.lt_succ_self b, hfb, hb⟩
    · have hfb2 : f b = false := by revert hfb; cases f b <;> simp
      obtain ⟨k, h1, h2, h3, h4⟩ := ih a (by omega) ha hfb2
      exact ⟨k, h1, by omega, h3, h4⟩

theorem dispatchesAt_lt (s : PanelState) (es : List Event) (n : Nat)
    (h : dispatchesAt s es n = true) : n < es.length := by
  by_contra hn
  push_neg at hn
  have hd : es.getD n Event.netErr = Event.netErr := List.getD_eq_default _ _ hn
  rw [dispatchesAt, hd] at h
  simp [stepEv] at h

/-- C1.  While the pending flag is true a poll tick issues no network
request, and along any run two dispatching ticks are always separated by a
step that clears the pending flag — a failure (`netErr`) or a swap
completion (`load`).  A second polling-driven submission is therefore never
dispatched before the first request's cycle has cleared the pending
flag. -/
theorem preview_c1_single_flight (t : PanelState) (fd : List (String × String))
    (s0 : PanelState) (es : List Event) (i j : Nat)
    (ht : t.hasPendingUpdate = true) (hij : i < j)
    (hi : dispatchesAt s0 es i = true) (hj : dispatchesAt s0 es j = true) :
    (stepEv t (Event.tick fd)).2 = false ∧
    ∃ k, i < k ∧ k < j ∧
      (stateBefore s0 es k).hasPendingUpdate = true ∧
      (stateBefore s0 es (k + 1)).hasPendingUpdate = false ∧
      (es.getD k Event.netErr = Event.netErr ∨ es.getD k Event.netErr = Event.load) := by
  constructor
  · simp [stepEv, ht]
  · have hilen := dispatchesAt_lt s0 es i hi
    have hi2 : (stepEv (stateBefore s0 es i) (es.getD i Event.netErr)).2 = true := hi
    have hj2 : (stepEv (stateBefore s0 es j) (es.getD j Event.netErr)).2 = true := hj
    have hdi := dispatch_step _ _ hi2
    have hdj := dispatch_step _ _ hj2
    have hfi : (stateBefore s0 es (i + 1)).hasPendingUpdate = true := by
      rw [stateBefore_succ s0 es i hilen]
      exact hdi.2
    have hfj : (stateBefore s0 es j).hasPendingUpdate = false := hdj.1
    obtain ⟨k, hk1, hk2, hk3, hk4⟩ :=
      exists_flip (fun n => (stateBefore s0 es n).hasPendingUpdate) j (i + 1) hij hfi hfj
    have hklen : k < es.length := by
      by_contra hkn
      push_neg at hkn
      rw [stateBefore_stable s0 es k hkn] at hk3
      rw [stateBefore_stable s0 es (k + 1) (by omega)] at hk4
      rw [hk3] at hk4
      cases hk4
    have hstep := stateBefore_succ s0 es k hklen
    have hflip := flip_event (stateBefore s0 es k) (es.getD k Event.netErr) hk3
      (by rw [← hstep]; exact hk4)
    exact ⟨k, by omega, hk2, hk3, hk4, hflip⟩

theorem preview_c1_single_flight_witness :
    pendingPanel.hasPendingUpdate = true ∧ (0 : Nat) < 2 ∧
    dispatchesAt samplePanel c1Events 0 = true ∧
    dispatchesAt samplePanel c1Events 2 = true ∧
    ((stepEv pendingPanel (Event.tick [("title", "world")])).2 = false ∧
      ∃ k, 0 < k ∧ k < 2 ∧
        (stateBefore samplePanel c1Events k).hasPendingUpdate = true ∧
        (stateBefore samplePanel c1Events (k + 1)).hasPendingUpdate = false ∧
        (c1Events.getD k Event.netErr = Event.netErr ∨
          c1Events.getD k Event.netErr = Event.load)) :=
  ⟨rfl, by decide, by decide, by decide,
    preview_c1_single_flight pendingPanel [("title", "world")] samplePanel c1Events 0 2
      rfl (by decide) (by decide) (by decide)⟩

end PreviewPanel
